import Mathlib

/-!
# Verification of the keysound-gui hotplug detection core (`src/DeviceDetect.cc`)

A shallow embedding of the hotplug detection and device-task lifecycle
manager.  C++ `std::string` values are modelled as `List Char`; the
`std::string::find` / `substr` / `erase` calls are modelled with the same
index arithmetic (including `size_t` clamping behaviour of `substr`).
External effects (the `popen` shell pipes, the netlink socket, the
per-device `key_detect` threads) are modelled as explicit inputs/oracles,
and the functions of `DeviceDetect.cc` become pure functions that also
emit an event trace so that ordering properties can be stated.

The Task Registry operations (`event_id_exists`, `del_event_id`,
`clear_all_key_detect_threads`, and the registration performed by
`key_detect`) live in other translation units of the repository that are
not part of `src/`; they are modelled from the spec where so marked.
-/

set_option autoImplicit false

namespace DeviceDetect

/-- Holds when `p` is a literal prefix of `s` (character-by-character comparison). -/
def listStartsWith : List Char → List Char → Bool
  | [], _ => true
  | _ :: _, [] => false
  | p :: ps, c :: cs => p = c && listStartsWith ps cs

/-- Model of `std::string::find(pat)`: index of the first occurrence of `pat` in `s`,
`none` for `npos`. -/
def strFind (pat : List Char) : List Char → Option Nat
  | [] => if listStartsWith pat [] then some 0 else none
  | c :: cs =>
    if listStartsWith pat (c :: cs) then some 0
    else Option.map (fun n => n + 1) (strFind pat cs)

/-- Model of `std::string::find(pat, start)`: first occurrence of `pat` at or after
index `start`, as an absolute index. -/
def strFindFrom (pat s : List Char) (start : Nat) : Option Nat :=
  Option.map (fun n => n + start) (strFind pat (s.drop start))

/-- The token `"event"` searched for by `get_event_id`. -/
def eventTok : List Char := ['e', 'v', 'e', 'n', 't']

/-- Function `get_event_id` from `DeviceDetect.cc` (lines 92–104):
find `"event"`; if absent return `""`; otherwise find the next `"/"`
(falling back to `buf.size()`) and return
`buf.substr(pos + 5, pos_stop - pos - 1)`.
`substr(start, len)` takes `min(len, size - start)` characters, which is
`(buf.drop start).take len` on lists. -/
def get_event_id (buf : List Char) : List Char :=
  match strFind eventTok buf with
  | none => []
  | some pos =>
    let pos_stop :=
      match strFindFrom ['/'] buf pos with
      | none => buf.length
      | some q => q
    (buf.drop (pos + 5)).take (pos_stop - pos - 1)

/-- The literal `"add"`. -/
def addTok : List Char := ['a', 'd', 'd']

/-- The literal `"remove"`. -/
def removeTok : List Char := ['r', 'e', 'm', 'o', 'v', 'e']

/-- Function `device_state` from `DeviceDetect.cc` (lines 107–111): `1` if the buffer
starts with `"add"` (`str.find("add") == 0`), `-1` if it starts with
`"remove"`, otherwise `0`. -/
def device_state (str : List Char) : Int :=
  if strFind addTok str = some 0 then 1
  else if strFind removeTok str = some 0 then -1
  else 0

/-- Outcome of one `popen(cmd2 + event_id)` capability probe: whether the
pipe opened, and the line `fgets` returns (if any). -/
structure ProbeOracle where
  openOk : Bool
  line : Option (List Char)

/-- Function `is_keyboard` from `DeviceDetect.cc` (lines 46–63): reject the empty
id; if `popen` fails, print and return `false`; otherwise return whether
`fgets` produced a line.  The probing I/O is supplied by the oracle. -/
def is_keyboard (event_id : List Char) (o : ProbeOracle) : Bool :=
  if event_id = [] then false
  else if o.openOk = false then false
  else
    match o.line with
    | some _ => true
    | none => false

/-- The set of device ids with a live monitoring task, as the list of
ids in spawn order (most recent first). -/
def Registry := List (List Char)

/-- Modelled from the spec: `event_id_exists` (declared in another
translation unit of the repository, not under `src/`): true iff a live
task is registered for `id`. -/
def event_id_exists (id : List Char) : Registry → Bool
  | [] => false
  | x :: xs => if x = id then true else event_id_exists id xs

/-- Modelled from the spec: registering a monitoring task for `id`
(performed by the spawned `key_detect`, not under `src/`); Registry
insertion is idempotent: an already-present id is a no-op. -/
def rstart (id : List Char) (r : Registry) : Registry :=
  if event_id_exists id r then r else id :: r

/-- Modelled from the spec: `del_event_id` (not under `src/`): signal the
task registered for `id` to cancel and remove it from the live set. -/
def del_event_id (id : List Char) : Registry → Registry
  | [] => []
  | x :: xs => if x = id then xs else x :: del_event_id id xs

/-- Number of live monitoring tasks registered for `id`. -/
def live_count (id : List Char) : Registry → Nat
  | [] => 0
  | x :: xs => (if x = id then 1 else 0) + live_count id xs

/-- Observable events of one `device_detect` run. -/
inductive Ev where
  /-- one hotplug notification buffer was received and processed -/
  | notif (buf : List Char)
  /-- a monitoring task (`key_detect` thread) was spawned for `id` -/
  | taskStart (id : List Char)
  /-- the task for `id` was signalled to cancel and removed -/
  | taskStop (id : List Char)
  /-- call of `clear_all_key_detect_threads()`: cancellation signalled to every task -/
  | cancelAll
  /-- call of `close(sock_fd)`: the netlink notification channel was closed -/
  | closeChannel
  /-- the join loop over `all_threads` completed -/
  | joinAll
  deriving DecidableEq

/-- The body of the `recv > 0` branch of `device_detect`'s listening loop
(lines 164–198): extract the id, classify the action, and run the
`switch`: on `1` (add), skip when a task already exists, otherwise
classify with `is_keyboard` and spawn (register) on success; on `-1`
(remove), delete only when a task exists; otherwise drop the buffer.
`kbo` supplies the capability-probe I/O for each id. -/
def processNotif (kbo : List Char → ProbeOracle) (buf : List Char)
    (r : Registry) : Registry × List Ev :=
  let str_event_id := get_event_id buf
  let state := device_state buf
  if state = 1 then
    if event_id_exists str_event_id r then (r, [Ev.notif buf])
    else if is_keyboard str_event_id (kbo str_event_id) then
      (rstart str_event_id r, [Ev.notif buf, Ev.taskStart str_event_id])
    else (r, [Ev.notif buf])
  else if state = -1 then
    if event_id_exists str_event_id r then
      (del_event_id str_event_id r, [Ev.notif buf, Ev.taskStop str_event_id])
    else (r, [Ev.notif buf])
  else (r, [Ev.notif buf])

/-- One iteration of the `select` poll: `none` models a timeout, a
`select` error, or a failed `recv`; `some buf` models a received
notification buffer (truncated at its first NUL byte, as the
`std::string` conversion does). -/
def Poll := Option (List Char)

/-- The `while (detect)` listening loop of `device_detect`
(lines 153–200): each poll either does nothing or processes one
notification; the loop exits when the stop flag is observed, i.e. when
the poll list is exhausted. -/
def listenLoop (kbo : List Char → ProbeOracle) :
    List Poll → Registry → Registry × List Ev
  | [], r => (r, [])
  | p :: ps, r =>
    match p with
    | none => listenLoop kbo ps r
    | some buf =>
      ((listenLoop kbo ps (processNotif kbo buf r).1).1,
        (processNotif kbo buf r).2 ++ (listenLoop kbo ps (processNotif kbo buf r).1).2)

/-- Model of `str.erase(str.size() - 1)` on a `std::string`: removes the last
character; on the empty string the position argument underflows to
`SIZE_MAX > size()` and `erase` throws `std::out_of_range`, modelled as
`Except.error`. -/
def eraseLast (s : List Char) : Except Unit (List Char) :=
  if s = [] then Except.error () else Except.ok s.dropLast

/-- The `fgets` loop body of `start_exists_device` (lines 122–130),
run over the lines the `cmd1` pipe produced: for each line, extract the
event id, erase its trailing character, and spawn a `key_detect` thread
for it (registration of the spawned task is `rstart`, modelled from the
spec).  A throwing `erase` aborts the run. -/
def startupRun : List (List Char) → Registry → Except Unit (Registry × List Ev)
  | [], r => Except.ok (r, [])
  | l :: ls, r =>
    match eraseLast (get_event_id l) with
    | Except.error _ => Except.error ()
    | Except.ok id =>
      match startupRun ls (rstart id r) with
      | Except.error _ => Except.error ()
      | Except.ok (r2, t2) => Except.ok (r2, Ev.taskStart id :: t2)

/-- Operations `start_exists_device` performs on the `FILE*` returned by
`popen(cmd1)`. -/
inductive PipeOp where
  | pfeof
  | pfgets
  | ppclose
  deriving DecidableEq

/-- The sequence of pipe operations of `start_exists_device`
(lines 113–133) on the handle, each paired with whether the handle is
null at that point.  When `popen` fails the code only prints
`"error occured"` and falls through, so the very next operation is
`feof(NULL)` — undefined behaviour, at which point the model stops.
When the pipe opens, each line costs one `feof` and one `fgets`, one
final `feof` observes EOF, and `pclose` ends the run. -/
def start_exists_device_pipeOps (popenResult : Option (List (List Char))) :
    List (PipeOp × Bool) :=
  match popenResult with
  | none => [(PipeOp.pfeof, true)]
  | some lines =>
    (lines.foldr (fun _ ops => (PipeOp.pfeof, false) :: (PipeOp.pfgets, false) :: ops)
      [(PipeOp.pfeof, false)]) ++ [(PipeOp.ppclose, false)]

/-- Function `device_detect` (lines 136–209) as a function of its external inputs:
the lines produced by the `cmd1` startup pipe, whether `init_socket`
succeeded, the poll outcomes until the stop flag is observed, and the
capability-probe oracle.  It first runs the startup enumeration, returns
early on socket failure, runs the listening loop, and at shutdown calls
`clear_all_key_detect_threads()` (cancel every task; modelled from the
spec as emptying the live set), closes the socket, and joins all
threads. -/
def device_detect (lines : List (List Char)) (sockOk : Bool)
    (polls : List Poll) (kbo : List Char → ProbeOracle) :
    Except Unit (Registry × List Ev) :=
  match startupRun lines [] with
  | Except.error _ => Except.error ()
  | Except.ok (r1, t1) =>
    if sockOk then
      Except.ok ([],
        t1 ++ (listenLoop kbo polls r1).2 ++ [Ev.cancelAll, Ev.closeChannel, Ev.joinAll])
    else Except.ok (r1, t1)

/-- The shape of one output line of `cmd1`: its final
`grep -Eo 'event[0-9]+'` stage prints only strings matching
`event[0-9]+`, each followed by a newline, so a line starts with the
token `"event"`, contains no `'/'`, and has length at least `7 > 5`. -/
def cmd1LineShape (l : List Char) : Bool :=
  listStartsWith eventTok l && l.all (fun c => decide (c ≠ '/')) &&
    decide (5 < l.length)

/-- The notification buffer of the spec's extraction example. -/
def c1Input : List Char :=
  "add@/devices/.../input/input9/eventUnsigned3/uevent".data

/-- A trivial capability-probe oracle: every pipe opens and reports a
capability line. -/
def kbo0 : List Char → ProbeOracle := fun _ => ⟨true, some ['x']⟩

/-- The event trace of the concrete `device_detect` run with no startup
lines, a working socket, and no poll activity before the stop flag. -/
def c3Trace : List Ev :=
  match device_detect [] true [] kbo0 with
  | Except.ok (_, t) => t
  | Except.error _ => []

/-! ## Supporting lemmas -/

theorem listStartsWith_iff_append (p : List Char) : ∀ s : List Char,
    listStartsWith p s = true ↔ ∃ t, s = p ++ t := by
  induction p with
  | nil =>
    intro s
    simp [listStartsWith]
  | cons a ps ih =>
    intro s
    cases s with
    | nil => simp [listStartsWith]
    | cons c cs =>
      simp only [listStartsWith, Bool.and_eq_true, decide_eq_true_eq, ih,
        List.cons_append, List.cons.injEq]
      constructor
      · rintro ⟨rfl, t, rfl⟩
        exact ⟨t, rfl, rfl⟩
      · rintro ⟨t, rfl, rfl⟩
        exact ⟨rfl, t, rfl⟩

theorem strFind_startsWith (pat : List Char) : ∀ (s : List Char) (k : Nat),
    strFind pat s = some k → listStartsWith pat (s.drop k) = true := by
  intro s
  induction s with
  | nil =>
    intro k h
    simp only [strFind] at h
    split at h
    · next hc => injection h with h0; subst h0; simpa using hc
    · exact absurd h (by simp)
  | cons c cs ih =>
    intro k h
    simp only [strFind] at h
    split at h
    · next hc => injection h with h0; subst h0; simpa using hc
    · cases hf : strFind pat cs with
      | none => rw [hf] at h; simp at h
      | some n =>
        rw [hf] at h
        simp at h
        subst h
        simpa using ih n hf

theorem strFind_eq_zero_iff (pat s : List Char) :
    strFind pat s = some 0 ↔ listStartsWith pat s = true := by
  constructor
  · intro h
    simpa using strFind_startsWith pat s 0 h
  · intro h
    cases s <;> simp [strFind, h]

theorem strFind_single_none (c : Char) : ∀ s : List Char,
    (∀ x ∈ s, x ≠ c) → strFind [c] s = none := by
  intro s
  induction s with
  | nil => intro _; simp [strFind, listStartsWith]
  | cons a as ih =>
    intro h
    have ha : a ≠ c := h a (by simp)
    have hsw : ¬ (listStartsWith [c] (a :: as) = true) := by
      simp only [listStartsWith, Bool.and_eq_true, decide_eq_true_eq]
      rintro ⟨rfl, -⟩
      exact ha rfl
    simp only [strFind, if_neg hsw, ih (fun x hx => h x (List.mem_cons_of_mem _ hx))]
    rfl

theorem event_id_exists_rstart_self (id : List Char) (r : Registry) :
    event_id_exists id (rstart id r) = true := by
  unfold rstart
  split
  · next h => exact h
  · simp [event_id_exists]

theorem event_id_exists_rstart_mono (id j : List Char) (r : Registry)
    (h : event_id_exists j r = true) : event_id_exists j (rstart id r) = true := by
  unfold rstart
  split
  · exact h
  · simp only [event_id_exists]
    split
    · rfl
    · exact h

theorem live_count_eq_zero (id : List Char) : ∀ r : Registry,
    event_id_exists id r = false → live_count id r = 0 := by
  intro r
  induction r with
  | nil => intro _; rfl
  | cons x xs ih =>
    intro h
    simp only [event_id_exists] at h
    split at h
    · exact absurd h (by simp)
    · next hx =>
      simp only [live_count, if_neg hx, ih h]

theorem live_count_pos (id : List Char) : ∀ r : Registry,
    event_id_exists id r = true → 1 ≤ live_count id r := by
  intro r
  induction r with
  | nil => intro h; exact absurd h (by simp [event_id_exists])
  | cons x xs ih =>
    intro h
    simp only [event_id_exists] at h
    simp only [live_count]
    split at h
    · next hx => simp [hx]
    · next hx => rw [if_neg hx]; simpa using ih h

theorem del_event_id_of_absent (id : List Char) : ∀ r : Registry,
    event_id_exists id r = false → del_event_id id r = r := by
  intro r
  induction r with
  | nil => intro _; rfl
  | cons x xs ih =>
    intro h
    simp only [event_id_exists] at h
    split at h
    · exact absurd h (by simp)
    · next hx => simp only [del_event_id, if_neg hx, ih h]

/-- Every event emitted while processing one notification is a `notif`,
`taskStart`, or `taskStop` event. -/
theorem processNotif_events (kbo : List Char → ProbeOracle) (buf : List Char)
    (r : Registry) (e : Ev) (he : e ∈ (processNotif kbo buf r).2) :
    (∃ b, e = Ev.notif b) ∨ (∃ id, e = Ev.taskStart id) ∨ (∃ id, e = Ev.taskStop id) := by
  simp only [processNotif] at he
  split at he
  · split at he
    · simp at he
      exact Or.inl ⟨buf, he⟩
    · split at he
      · simp at he
        rcases he with he | he
        · exact Or.inl ⟨buf, he⟩
        · exact Or.inr (Or.inl ⟨_, he⟩)
      · simp at he
        exact Or.inl ⟨buf, he⟩
  · split at he
    · split at he
      · simp at he
        rcases he with he | he
        · exact Or.inl ⟨buf, he⟩
        · exact Or.inr (Or.inr ⟨_, he⟩)
      · simp at he
        exact Or.inl ⟨buf, he⟩
    · simp at he
      exact Or.inl ⟨buf, he⟩

/-- Every event emitted by the listening loop is a `notif`, `taskStart`,
or `taskStop` event. -/
theorem listenLoop_events (kbo : List Char → ProbeOracle) : ∀ (polls : List Poll)
    (r : Registry) (e : Ev), e ∈ (listenLoop kbo polls r).2 →
    (∃ b, e = Ev.notif b) ∨ (∃ id, e = Ev.taskStart id) ∨ (∃ id, e = Ev.taskStop id) := by
  intro polls
  induction polls with
  | nil => intro r e he; simp [listenLoop] at he
  | cons p ps ih =>
    intro r e he
    cases p with
    | none => exact ih r e he
    | some buf =>
      simp only [listenLoop, List.mem_append] at he
      rcases he with he | he
      · exact processNotif_events kbo buf r e he
      · exact ih _ e he

/-- Every event emitted by the startup enumeration is a `taskStart`. -/
theorem startupRun_events : ∀ (lines : List (List Char)) (r r1 : Registry)
    (t1 : List Ev), startupRun lines r = Except.ok (r1, t1) →
    ∀ e ∈ t1, ∃ id, e = Ev.taskStart id := by
  intro lines
  induction lines with
  | nil =>
    intro r r1 t1 h e he
    simp only [startupRun] at h
    injection h with h
    injection h with h1 h2
    subst h2
    simp at he
  | cons l ls ih =>
    intro r r1 t1 h e he
    simp only [startupRun] at h
    split at h
    · exact absurd h (by simp)
    · next id hid =>
      split at h
      · exact absurd h (by simp)
      · next r2 t2 hrun =>
        injection h with h
        injection h with h1 h2
        subst h2
        simp only [List.mem_cons] at he
        rcases he with he | he
        · exact ⟨id, he⟩
        · exact ih _ _ _ hrun e he

/-- Ids registered before the startup enumeration survive it. -/
theorem startupRun_exists_mono : ∀ (lines : List (List Char)) (r r1 : Registry)
    (t1 : List Ev) (j : List Char), startupRun lines r = Except.ok (r1, t1) →
    event_id_exists j r = true → event_id_exists j r1 = true := by
  intro lines
  induction lines with
  | nil =>
    intro r r1 t1 j h hj
    simp only [startupRun] at h
    injection h with h
    injection h with h1 h2
    subst h1
    exact hj
  | cons l ls ih =>
    intro r r1 t1 j h hj
    simp only [startupRun] at h
    split at h
    · exact absurd h (by simp)
    · next id hid =>
      split at h
      · exact absurd h (by simp)
      · next r2 t2 hrun =>
        injection h with h
        injection h with h1 h2
        subst h1
        exact ih _ _ _ _ hrun (event_id_exists_rstart_mono id j r hj)

/-- After the startup enumeration every enumerated line's id (its event id
with the trailing character erased) has a live task. -/
theorem startupRun_covers : ∀ (lines : List (List Char)) (r r1 : Registry)
    (t1 : List Ev), startupRun lines r = Except.ok (r1, t1) →
    ∀ l ∈ lines, ∃ id, eraseLast (get_event_id l) = Except.ok id ∧
      event_id_exists id r1 = true := by
  intro lines
  induction lines with
  | nil =>
    intro r r1 t1 _ l hl
    simp at hl
  | cons l0 ls ih =>
    intro r r1 t1 h l hl
    simp only [startupRun] at h
    split at h
    · exact absurd h (by simp)
    · next id hid =>
      split at h
      · exact absurd h (by simp)
      · next r2 t2 hrun =>
        injection h with h
        injection h with h1 h2
        subst h1
        simp only [List.mem_cons] at hl
        rcases hl with rfl | hl
        · refine ⟨id, hid, ?_⟩
          exact startupRun_exists_mono ls _ _ _ id hrun (event_id_exists_rstart_self id r)
        · exact ih _ _ _ hrun l hl

theorem rstart_of_exists (id : List Char) (r : Registry)
    (h : event_id_exists id r = true) : rstart id r = r := by
  simp [rstart, h]

theorem exists_eq_false_of_not (b : Bool) (h : ¬ b = true) : b = false := by
  cases b
  · rfl
  · exact absurd rfl h

/-! ## Claim theorems -/

/-- C2: starting a DeviceId is idempotent: a second `start` of the same id
is a no-op, after two `start`s exactly one live task exists for the id,
the at-most-one-task invariant is preserved, and the hotplug add path
leaves the registry unchanged when the id is already registered. -/
theorem registry_start_idempotent (id : List Char) (r : Registry)
    (h : ∀ j, live_count j r ≤ 1) :
    rstart id (rstart id r) = rstart id r
    ∧ live_count id (rstart id (rstart id r)) = 1
    ∧ (∀ j, live_count j (rstart id r) ≤ 1)
    ∧ (∀ (kbo : List Char → ProbeOracle) (buf : List Char) (r2 : Registry),
        device_state buf = 1 → event_id_exists (get_event_id buf) r2 = true →
        (processNotif kbo buf r2).1 = r2) := by
  have hidem : rstart id (rstart id r) = rstart id r :=
    rstart_of_exists id (rstart id r) (event_id_exists_rstart_self id r)
  refine ⟨hidem, ?_, ?_, ?_⟩
  · rw [hidem]
    by_cases hx : event_id_exists id r = true
    · rw [rstart_of_exists id r hx]
      have h1 := live_count_pos id r hx
      have h2 := h id
      omega
    · have hx2 : event_id_exists id r = false := exists_eq_false_of_not _ hx
      have hr1 : rstart id r = id :: r := by simp [rstart, hx2]
      rw [hr1]
      simp [live_count, live_count_eq_zero id r hx2]
  · intro j
    by_cases hx : event_id_exists id r = true
    · rw [rstart_of_exists id r hx]
      exact h j
    · have hx2 : event_id_exists id r = false := exists_eq_false_of_not _ hx
      have hr1 : rstart id r = id :: r := by simp [rstart, hx2]
      rw [hr1]
      simp only [live_count]
      by_cases hij : id = j
      · subst hij
        rw [if_pos rfl, live_count_eq_zero id r hx2]
      · rw [if_neg hij]
        have := h j
        omega
  · intro kbo buf r2 h1 h2
    simp [processNotif, h1, h2]

/-- C2 witness: two successive starts of id `"3"` on the empty registry
leave exactly one live task for `"3"`. -/
theorem registry_start_idempotent_witness :
    rstart ['3'] (rstart ['3'] []) = rstart ['3'] [] ∧
      live_count ['3'] (rstart ['3'] (rstart ['3'] [])) = 1 :=
  ⟨(registry_start_idempotent ['3'] [] (fun _ => Nat.zero_le 1)).1,
    (registry_start_idempotent ['3'] [] (fun _ => Nat.zero_le 1)).2.1⟩

/-- C5: any I/O failure while probing the capability descriptor — the
probe pipe cannot be opened, or no capability line can be read — makes
`is_keyboard` return `false`; being a total `Bool`-valued function, it
never propagates an error to its caller. -/
theorem is_keyboard_io_failure (id : List Char) (o : ProbeOracle)
    (h : o.openOk = false ∨ o.line = none) : is_keyboard id o = false := by
  unfold is_keyboard
  split
  · rfl
  · split
    · rfl
    · next hopen =>
      rcases h with h | h
      · exact absurd h hopen
      · rw [h]

/-- C5 witness: a failed `popen` and an unreadable capability line both
classify id `"3"` as not a keyboard. -/
theorem is_keyboard_io_failure_witness :
    is_keyboard ['3'] ⟨false, some ['x']⟩ = false ∧
      is_keyboard ['3'] ⟨true, none⟩ = false :=
  ⟨is_keyboard_io_failure ['3'] ⟨false, some ['x']⟩ (Or.inl rfl),
    is_keyboard_io_failure ['3'] ⟨true, none⟩ (Or.inr rfl)⟩

/-- C6: processing a `Removed` notification whose id has no registered
task is a no-op — the registry is unchanged and only the notification
itself is recorded — and `del_event_id` on an absent id returns the
registry unchanged. -/
theorem removed_absent_noop (kbo : List Char → ProbeOracle) (buf : List Char)
    (r : Registry) (hstate : device_state buf = -1)
    (habs : event_id_exists (get_event_id buf) r = false) :
    processNotif kbo buf r = (r, [Ev.notif buf])
    ∧ ∀ (id : List Char) (r2 : Registry), event_id_exists id r2 = false →
        del_event_id id r2 = r2 := by
  constructor
  · simp [processNotif, hstate, habs]
  · intro id r2 h2
    exact del_event_id_of_absent id r2 h2

/-- C6 witness: a remove notification for the unregistered id `"7"` on
the empty registry changes nothing. -/
theorem removed_absent_noop_witness :
    processNotif kbo0 "remove@/x/event7".data [] =
      ([], [Ev.notif "remove@/x/event7".data]) :=
  (removed_absent_noop kbo0 "remove@/x/event7".data [] (by decide) (by decide)).1

/-- C8: `device_state` classifies a buffer as added (`1`) exactly when it
starts with the literal `"add"`, as removed (`-1`) exactly when it starts
with `"remove"`, and as other (`0`) in every remaining case; an
other-classified notification is discarded without any registry change. -/
theorem action_classification (s : List Char) :
    (device_state s = 1 ↔ listStartsWith addTok s = true)
    ∧ (device_state s = -1 ↔ listStartsWith removeTok s = true)
    ∧ (device_state s = 0 ↔
        (listStartsWith addTok s = false ∧ listStartsWith removeTok s = false))
    ∧ (device_state s = 0 → ∀ (kbo : List Char → ProbeOracle) (r : Registry),
        processNotif kbo s r = (r, [Ev.notif s])) := by
  have hA := strFind_eq_zero_iff addTok s
  have hR := strFind_eq_zero_iff removeTok s
  have hclash : ¬ (listStartsWith addTok s = true ∧ listStartsWith removeTok s = true) := by
    rintro ⟨h1, h2⟩
    rw [listStartsWith_iff_append] at h1 h2
    obtain ⟨t1, rfl⟩ := h1
    obtain ⟨t2, ht2⟩ := h2
    simp [addTok, removeTok] at ht2
  by_cases ha : strFind addTok s = some 0 <;> by_cases hr : strFind removeTok s = some 0
  · exact absurd ⟨hA.mp ha, hR.mp hr⟩ hclash
  · have h1 : listStartsWith addTok s = true := hA.mp ha
    have h2 : listStartsWith removeTok s = false :=
      exists_eq_false_of_not _ (fun hc => hr (hR.mpr hc))
    have hds : device_state s = 1 := by simp [device_state, ha]
    refine ⟨?_, ?_, ?_, ?_⟩
    · simp [hds, h1]
    · simp [hds, h2]
    · simp [hds, h1]
    · intro h0
      rw [hds] at h0
      exact absurd h0 (by decide)
  · have h1 : listStartsWith addTok s = false :=
      exists_eq_false_of_not _ (fun hc => ha (hA.mpr hc))
    have h2 : listStartsWith removeTok s = true := hR.mp hr
    have hds : device_state s = -1 := by simp [device_state, ha, hr]
    refine ⟨?_, ?_, ?_, ?_⟩
    · simp [hds, h1]
    · simp [hds, h2]
    · simp [hds, h2]
    · intro h0
      rw [hds] at h0
      exact absurd h0 (by decide)
  · have h1 : listStartsWith addTok s = false :=
      exists_eq_false_of_not _ (fun hc => ha (hA.mpr hc))
    have h2 : listStartsWith removeTok s = false :=
      exists_eq_false_of_not _ (fun hc => hr (hR.mpr hc))
    refine ⟨?_, ?_, ?_, ?_⟩
    · simp [device_state, ha, hr, h1]
    · simp [device_state, ha, hr, h2]
    · simp [device_state, ha, hr, h1, h2]
    · intro _ kbo r
      simp [processNotif, device_state, ha, hr]

/-- C8 witness: `"add@..."` classifies as added, `"remove@..."` as
removed, and a `"change@..."` buffer classifies as other and is dropped
without a registry change. -/
theorem action_classification_witness :
    device_state "add@/x".data = 1 ∧ device_state "remove@/x".data = -1 ∧
      device_state "change@/x".data = 0 ∧
      processNotif kbo0 "change@/x".data [['9']] =
        ([['9']], [Ev.notif "change@/x".data]) := by
  have h0 : device_state "change@/x".data = 0 := by decide
  refine ⟨?_, ?_, h0, (action_classification "change@/x".data).2.2.2 h0 kbo0 [['9']]⟩
  · exact (action_classification "add@/x".data).1.mpr (by decide)
  · exact (action_classification "remove@/x".data).2.1.mpr (by decide)

/-- C7: a buffer with no `"event"` token yields the empty identifier
(`get_event_id` is total and never signals an error), and processing a
notification whose extracted identifier is empty leaves the registry
unchanged (no task is started or stopped), for any registry with no task
registered under the empty id. -/
theorem empty_identifier_ignored :
    (∀ buf : List Char, strFind eventTok buf = none → get_event_id buf = [])
    ∧ (∀ (kbo : List Char → ProbeOracle) (buf : List Char) (r : Registry),
        get_event_id buf = [] → event_id_exists [] r = false →
        processNotif kbo buf r = (r, [Ev.notif buf])) := by
  constructor
  · intro buf h
    simp [get_event_id, h]
  · intro kbo buf r hid hex
    by_cases h1 : device_state buf = 1
    · simp [processNotif, hid, h1, hex, is_keyboard]
    · by_cases h2 : device_state buf = -1
      · simp [processNotif, hid, h1, h2, hex]
      · simp [processNotif, hid, h1, h2]

/-- C7 witness: the buffer `"add@/x/y"` has no token, extracts the empty
identifier, and is processed without any registry change. -/
theorem empty_identifier_ignored_witness :
    get_event_id "add@/x/y".data = [] ∧
      processNotif kbo0 "add@/x/y".data [['3']] =
        ([['3']], [Ev.notif "add@/x/y".data]) :=
  ⟨empty_identifier_ignored.1 "add@/x/y".data (by decide),
    empty_identifier_ignored.2 kbo0 "add@/x/y".data [['3']] (by decide) (by decide)⟩

/-- C1 counterexample: on the spec's own example buffer, which contains
the `"event"` token followed by a path separator, `get_event_id` returns
`"Unsigned3/uev"` — neither the claimed `"3"` nor the text
`"Unsigned3"` lying between the end of the token and the separator. -/
theorem get_event_id_example_counterexample :
    get_event_id c1Input = "Unsigned3/uev".data ∧
      get_event_id c1Input ≠ "3".data ∧
      get_event_id c1Input ≠ "Unsigned3".data := by
  refine ⟨by decide, by decide, by decide⟩

/-- C1 amended: when the buffer contains the token at `pos` and a path
separator at `pos_stop ≥ pos + 5`, `get_event_id` returns the text
between the end of the token and the separator FOLLOWED by the separator
and up to three further characters (clamped at the buffer end), because
the length passed to `substr` is `pos_stop - pos - 1` instead of
`pos_stop - (pos + 5)`. -/
theorem get_event_id_token_separator (buf : List Char) (pos pos_stop : Nat)
    (hp : strFind eventTok buf = some pos)
    (hs : strFindFrom ['/'] buf pos = some pos_stop) :
    get_event_id buf =
      (buf.drop (pos + 5)).take (pos_stop - pos - 5) ++ (buf.drop pos_stop).take 4 := by
  obtain ⟨k, hk, hks⟩ : ∃ k, strFind ['/'] (buf.drop pos) = some k ∧ k + pos = pos_stop := by
    unfold strFindFrom at hs
    cases hf : strFind ['/'] (buf.drop pos) with
    | none => rw [hf] at hs; exact absurd hs (by simp)
    | some k =>
      rw [hf] at hs
      simp at hs
      exact ⟨k, rfl, hs⟩
  have hev : listStartsWith eventTok (buf.drop pos) = true :=
    strFind_startsWith eventTok buf pos hp
  have hsl : listStartsWith ['/'] ((buf.drop pos).drop k) = true :=
    strFind_startsWith ['/'] (buf.drop pos) k hk
  have hk5 : 5 ≤ k := by
    by_contra hlt
    push_neg at hlt
    obtain ⟨rest, hrest⟩ := (listStartsWith_iff_append eventTok (buf.drop pos)).mp hev
    rw [hrest] at hsl
    interval_cases k <;> simp [eventTok, listStartsWith] at hsl
  simp only [get_event_id, hp, hs]
  subst hks
  have harith : k + pos - pos - 1 = (k + pos - pos - 5) + 4 := by omega
  rw [harith, List.take_add, List.drop_drop]
  have h2 : pos + 5 + (k + pos - pos - 5) = k + pos := by omega
  rw [h2]

/-- C1 amended witness: on the example buffer the token sits at index 30
and the separator at index 44, and the returned identifier is the
between-text plus the separator and three further characters. -/
theorem get_event_id_token_separator_witness :
    strFind eventTok c1Input = some 30 ∧
      strFindFrom ['/'] c1Input 30 = some 44 ∧
      get_event_id c1Input =
        (c1Input.drop (30 + 5)).take (44 - 30 - 5) ++ (c1Input.drop 44).take 4 :=
  ⟨by decide, by decide,
    get_event_id_token_separator c1Input 30 44 (by decide) (by decide)⟩

theorem get_event_id_of_cmd1Shape (l : List Char) (h : cmd1LineShape l = true) :
    get_event_id l ≠ [] := by
  simp only [cmd1LineShape, Bool.and_eq_true, decide_eq_true_eq, List.all_eq_true] at h
  obtain ⟨⟨hsw, hns⟩, hlen⟩ := h
  have h0 : strFind eventTok l = some 0 := (strFind_eq_zero_iff _ _).mpr hsw
  have h1 : strFindFrom ['/'] l 0 = none := by
    unfold strFindFrom
    rw [strFind_single_none '/' (l.drop 0) (fun x hx => hns x (by simpa using hx))]
    rfl
  simp only [get_event_id, h0, h1]
  rw [← List.length_pos]
  rw [List.length_take, List.length_drop]
  omega

theorem startupRun_total : ∀ lines : List (List Char),
    (∀ l ∈ lines, get_event_id l ≠ []) → ∀ r : Registry,
    ∃ p, startupRun lines r = Except.ok p := by
  intro lines
  induction lines with
  | nil => intro _ r; exact ⟨(r, []), rfl⟩
  | cons l ls ih =>
    intro h r
    have hne := h l (by simp)
    have hok : eraseLast (get_event_id l) = Except.ok (get_event_id l).dropLast := by
      unfold eraseLast
      rw [if_neg hne]
    obtain ⟨⟨r2, t2⟩, hp⟩ :=
      ih (fun x hx => h x (by simp [hx])) (rstart (get_event_id l).dropLast r)
    exact ⟨(r2, Ev.taskStart (get_event_id l).dropLast :: t2),
      by simp only [startupRun, hok, hp]⟩

/-- C10: when every line from the enumeration pipe has the shape the
final `grep -Eo` stage of `cmd1` guarantees, the identifier extracted by
`get_event_id` is non-empty for every line, so every
`erase(size() - 1)` call during startup is in bounds and the run
completes without an out-of-range error. -/
theorem startup_erase_in_bounds (lines : List (List Char))
    (h : ∀ l ∈ lines, cmd1LineShape l = true) :
    (∀ l ∈ lines, get_event_id l ≠ []) ∧
      ∀ r : Registry, ∃ p, startupRun lines r = Except.ok p :=
  ⟨fun l hl => get_event_id_of_cmd1Shape l (h l hl),
    startupRun_total lines (fun l hl => get_event_id_of_cmd1Shape l (h l hl))⟩

/-- C10 witness: for the enumeration line `"event3\n"` the extracted
identifier is non-empty and the startup run succeeds. -/
theorem startup_erase_in_bounds_witness :
    get_event_id "event3\n".data ≠ [] ∧
      ∃ p, startupRun ["event3\n".data] [] = Except.ok p :=
  ⟨(startup_erase_in_bounds ["event3\n".data] (by decide)).1 _ (by simp),
    (startup_erase_in_bounds ["event3\n".data] (by decide)).2 []⟩

/-- C4: the startup enumeration runs first and synchronously inside
`device_detect`: when it completes with registry `r1` and trace `t1`,
every enumerated device has a live task in `r1`, no hotplug notification
occurs in `t1`, and the whole run's trace extends `t1` — polling happens
only afterwards. -/
theorem startup_enumeration_coverage (lines : List (List Char)) (sockOk : Bool)
    (polls : List Poll) (kbo : List Char → ProbeOracle) (r1 : Registry)
    (t1 : List Ev) (h : startupRun lines [] = Except.ok (r1, t1)) :
    (∀ l ∈ lines, ∃ id, eraseLast (get_event_id l) = Except.ok id ∧
      event_id_exists id r1 = true)
    ∧ (∀ buf : List Char, Ev.notif buf ∉ t1)
    ∧ ∃ (r2 : Registry) (t2 : List Ev),
        device_detect lines sockOk polls kbo = Except.ok (r2, t1 ++ t2) := by
  refine ⟨startupRun_covers lines [] r1 t1 h, ?_, ?_⟩
  · intro buf hmem
    obtain ⟨id, hid⟩ := startupRun_events lines [] r1 t1 h _ hmem
    exact Ev.noConfusion hid
  · cases sockOk with
    | true =>
      refine ⟨[], (listenLoop kbo polls r1).2 ++ [Ev.cancelAll, Ev.closeChannel, Ev.joinAll], ?_⟩
      simp only [device_detect, h, if_true]
      rw [List.append_assoc]
    | false =>
      refine ⟨r1, [], ?_⟩
      simp only [device_detect, h, List.append_nil]
      simp

/-- C4 witness: three present keyboard devices (`event1`, `event2`,
`event3`) yield exactly three live tasks after the startup enumeration,
each covered, with no notification processed. -/
theorem startup_enumeration_coverage_witness :
    startupRun ["event1\n".data, "event2\n".data, "event3\n".data] [] =
      Except.ok ([['3'], ['2'], ['1']],
        [Ev.taskStart ['1'], Ev.taskStart ['2'], Ev.taskStart ['3']]) ∧
    (∀ l ∈ ["event1\n".data, "event2\n".data, "event3\n".data], ∃ id,
        eraseLast (get_event_id l) = Except.ok id ∧
        event_id_exists id [['3'], ['2'], ['1']] = true) ∧
    List.length [['3'], ['2'], ['1']] = 3 :=
  ⟨rfl,
    (startup_enumeration_coverage ["event1\n".data, "event2\n".data, "event3\n".data]
      true [] kbo0 [['3'], ['2'], ['1']]
      [Ev.taskStart ['1'], Ev.taskStart ['2'], Ev.taskStart ['3']] rfl).1,
    rfl⟩

/-- C3 counterexample: in the concrete shutdown trace of `device_detect`
the channel close does not precede the cancellation of the registered
tasks — `clear_all_key_detect_threads()` runs first, so the claim that
the Listener closes its channel before invoking the drain fails. -/
theorem shutdown_close_first_counterexample :
    Ev.cancelAll ∈ c3Trace ∧ Ev.closeChannel ∈ c3Trace ∧
      ¬ List.indexOf Ev.closeChannel c3Trace < List.indexOf Ev.cancelAll c3Trace := by
  decide

/-- C3 amended: at shutdown, after the loop exits, `device_detect` first
signals cancellation to every registered task
(`clear_all_key_detect_threads`), then closes the channel, then joins all
task threads; each of the three happens exactly once, at the very end of
the trace, in that order. -/
theorem shutdown_sequence (lines : List (List Char)) (polls : List Poll)
    (kbo : List Char → ProbeOracle) (r : Registry) (t : List Ev)
    (h : device_detect lines true polls kbo = Except.ok (r, t)) :
    ∃ t0, t = t0 ++ [Ev.cancelAll, Ev.closeChannel, Ev.joinAll]
      ∧ Ev.cancelAll ∉ t0 ∧ Ev.closeChannel ∉ t0 ∧ Ev.joinAll ∉ t0 := by
  unfold device_detect at h
  cases hs : startupRun lines [] with
  | error e =>
    rw [hs] at h
    exact absurd h (by simp)
  | ok p =>
    obtain ⟨r1, t1⟩ := p
    rw [hs] at h
    replace h : (Except.ok (([] : Registry),
        t1 ++ (listenLoop kbo polls r1).2 ++ [Ev.cancelAll, Ev.closeChannel, Ev.joinAll]) :
          Except Unit (Registry × List Ev))
        = Except.ok (r, t) := h
    injection h with h
    injection h with h1 h2
    have hev : ∀ e ∈ t1 ++ (listenLoop kbo polls r1).2,
        (∃ b, e = Ev.notif b) ∨ (∃ id, e = Ev.taskStart id) ∨
          (∃ id, e = Ev.taskStop id) := by
      intro e he
      rcases List.mem_append.mp he with hm | hm
      · obtain ⟨id, hid⟩ := startupRun_events lines [] r1 t1 hs e hm
        exact Or.inr (Or.inl ⟨id, hid⟩)
      · exact listenLoop_events kbo polls r1 e hm
    refine ⟨t1 ++ (listenLoop kbo polls r1).2, ?_, ?_, ?_, ?_⟩
    · rw [← h2, List.append_assoc]
    · intro hmem
      rcases hev _ hmem with hc | hc | hc <;> obtain ⟨x, hx⟩ := hc <;> exact Ev.noConfusion hx
    · intro hmem
      rcases hev _ hmem with hc | hc | hc <;> obtain ⟨x, hx⟩ := hc <;> exact Ev.noConfusion hx
    · intro hmem
      rcases hev _ hmem with hc | hc | hc <;> obtain ⟨x, hx⟩ := hc <;> exact Ev.noConfusion hx

/-- C3 amended witness: the concrete run with no startup lines and no
poll activity ends with cancel-all, channel close, and join, in that
order. -/
theorem shutdown_sequence_witness :
    device_detect [] true [] kbo0 =
      Except.ok ([], [Ev.cancelAll, Ev.closeChannel, Ev.joinAll])
    ∧ ∃ t0, [Ev.cancelAll, Ev.closeChannel, Ev.joinAll] =
        t0 ++ [Ev.cancelAll, Ev.closeChannel, Ev.joinAll]
      ∧ Ev.cancelAll ∉ t0 ∧ Ev.closeChannel ∉ t0 ∧ Ev.joinAll ∉ t0 :=
  ⟨rfl, shutdown_sequence [] [] kbo0 []
    [Ev.cancelAll, Ev.closeChannel, Ev.joinAll] rfl⟩

/-- C9: when `popen(cmd1)` fails, `start_exists_device` does not stop: the
error branch only prints, execution falls through, and the null handle is
passed to `feof` — contrary to the claim that the error branch prevents
any read from the failed handle. -/
theorem popen_failure_feof_null :
    (PipeOp.pfeof, true) ∈ start_exists_device_pipeOps none := by
  decide

end DeviceDetect
